import Mathlib

/-!
Verification of the WebSocket protocol core of the `kate` repository
(`kate/core/websocket.py`, `kate/core/util.py`), via a shallow embedding.

Bytes are modelled as `Nat` values `< 256`, byte strings as `List Nat`.
External libraries (zlib, the OS socket layer) are modelled abstractly by
their contracts; everything else is translated directly from the source.
-/

namespace Kate

/-! ## Byte-level helpers -/

/-- A list of naturals is a byte string when every element is below 256. -/
def isBytes (l : List Nat) : Prop := ∀ b ∈ l, b < 256

/-- Big-endian 16-bit encoding (`struct.pack("!H", n)`). -/
def be16 (n : Nat) : List Nat := [n / 256 % 256, n % 256]

/-- Big-endian 64-bit encoding (`struct.pack("!Q", n)`). -/
def be64 (n : Nat) : List Nat :=
  [n / 256 ^ 7 % 256, n / 256 ^ 6 % 256, n / 256 ^ 5 % 256, n / 256 ^ 4 % 256,
   n / 256 ^ 3 % 256, n / 256 ^ 2 % 256, n / 256 % 256, n % 256]

/-- Big-endian 16-bit decoding (`struct.unpack("!H", data)`). -/
def de16 (b : List Nat) : Nat := 256 * b.getD 0 0 + b.getD 1 0

/-- Big-endian 64-bit decoding (`struct.unpack("!Q", data)`). -/
def de64 (b : List Nat) : Nat :=
  256 ^ 7 * b.getD 0 0 + 256 ^ 6 * b.getD 1 0 + 256 ^ 5 * b.getD 2 0 +
  256 ^ 4 * b.getD 3 0 + 256 ^ 3 * b.getD 4 0 + 256 ^ 2 * b.getD 5 0 +
  256 * b.getD 6 0 + b.getD 7 0

/-! ## Masking (`kate/core/util.py`, `_websocket_mask_python`)

`unmasked_arr[i] = unmasked_arr[i] ^ mask_arr[i % 4]` for every index of
`data`; the mask is a 4-byte string. -/

def websocketMask (mask : List Nat) (data : List Nat) : List Nat :=
  (List.range data.length).map fun i => data.getD i 0 ^^^ mask.getD (i % 4) 0

lemma websocketMask_length (mask data : List Nat) :
    (websocketMask mask data).length = data.length := by
  simp [websocketMask]

lemma websocketMask_getD (mask data : List Nat) (i : Nat) (hi : i < data.length) :
    (websocketMask mask data).getD i 0 =
      data.getD i 0 ^^^ mask.getD (i % 4) 0 := by
  simp [websocketMask, List.getD, List.getElem?_map, List.getElem?_range, hi]

lemma websocketMask_involutive (mask data : List Nat) :
    websocketMask mask (websocketMask mask data) = data := by
  apply List.ext_getElem
  · simp [websocketMask]
  · intro i h1 h2
    have hlen : (websocketMask mask data).length = data.length :=
      websocketMask_length mask data
    have hi : i < data.length := h2
    have h1' : i < (websocketMask mask (websocketMask mask data)).length := h1
    have e1 : (websocketMask mask (websocketMask mask data)).getD i 0 =
        (websocketMask mask data).getD i 0 ^^^ mask.getD (i % 4) 0 :=
      websocketMask_getD mask (websocketMask mask data) i (by rw [hlen]; exact hi)
    have e2 : (websocketMask mask data).getD i 0 =
        data.getD i 0 ^^^ mask.getD (i % 4) 0 :=
      websocketMask_getD mask data i hi
    have : (websocketMask mask (websocketMask mask data)).getD i 0 = data.getD i 0 := by
      rw [e1, e2, Nat.xor_assoc, Nat.xor_self, Nat.xor_zero]

    simpa [List.getD, List.getElem?_eq_getElem, h1', hi] using this

/-! ## Frame codec (`WebSocketProtocol13._write_frame` / `_receive_frame`)

`_write_frame` is modelled for a server-side connection
(`mask_outgoing = False`, as constructed by
`WebSocketHandler.get_websocket_protocol`), so `mask_bit = 0` and no mask is
prefixed. The two `ValueError` raises for invalid control frames become
`Except.error` values. -/

/-- The length field of a frame: `data_len < 126` literal, `<= 0xFFFF`
marker 126 plus 16-bit big-endian, otherwise marker 127 plus 64-bit
big-endian (`_write_frame`, the three `struct.pack` branches). -/
def lenFieldBytes (n : Nat) : List Nat :=
  if n < 126 then [n]
  else if n ≤ 65535 then 126 :: be16 n
  else 127 :: be64 n

/-- Model of `WebSocketProtocol13._write_frame` (server side): header byte
`finbit | opcode | flags`, then the length field, then the payload. -/
def writeFrame (fin : Bool) (opcode : Nat) (data : List Nat) (flags : Nat) :
    Except String (List Nat) :=
  let dataLen := data.length
  if opcode &&& 8 ≠ 0 ∧ fin = false then
    .error "control frames may not be fragmented"
  else if opcode &&& 8 ≠ 0 ∧ dataLen > 125 then
    .error "control frame payloads may not exceed 125 bytes"
  else
    let finbit := if fin then 128 else 0
    .ok ((finbit ||| opcode ||| flags) :: lenFieldBytes dataLen ++ data)

/-- One decoded frame as produced by the codec phase of `_receive_frame`. -/
structure Frame where
  isFinal : Bool
  opcode : Nat
  payload : List Nat
deriving Repr, DecidableEq

/-- `StreamReader.readexactly(n)`: exactly `n` bytes or a short read. -/
def readBytes (n : Nat) (s : List Nat) : Option (List Nat × List Nat) :=
  if n ≤ s.length then some (s.take n, s.drop n) else none

/-- The extended-length read of `_receive_frame`: a 7-bit value below 126 is
literal, 126 reads a 16-bit big-endian extension, 127 an eight-byte one. -/
def readExtendedLen (payloadlen7 : Nat) (s : List Nat) :
    Option (Nat × List Nat) :=
  if payloadlen7 < 126 then some (payloadlen7, s)
  else if payloadlen7 = 126 then
    match readBytes 2 s with
    | none => none
    | some (d, s) => some (de16 d, s)
  else
    match readBytes 8 s with
    | none => none
    | some (d, s) => some (de64 d, s)

/-- Model of the codec phase of `WebSocketProtocol13._receive_frame` for a
connection with no negotiated decompressor (`_decompressor is None`, so
every reserved bit must be zero): header byte, mask/length byte,
control-length validation, extended length, optional mask key, payload,
unmasking. `none` is an abort (reserved bits, oversized control length) or
a short read; the size-limit check and the fragmentation dispatch that
follow in the source are modelled in `receiveFrameStep` below. -/
def receiveFrameBytes : List Nat → Option (Frame × List Nat)
  | header :: maskPayloadlen :: s =>
    let isFinalFrame : Bool := header &&& 128 != 0
    let reservedBits := header &&& 112
    let opcode := header &&& 15
    if reservedBits ≠ 0 then none
    else if opcode &&& 8 ≠ 0 ∧ maskPayloadlen &&& 127 ≥ 126 then none
    else
      match readExtendedLen (maskPayloadlen &&& 127) s with
      | none => none
      | some (payloadlen, s) =>
        if maskPayloadlen &&& 128 ≠ 0 then
          match readBytes 4 s with
          | none => none
          | some (mask, s) =>
            match readBytes payloadlen s with
            | none => none
            | some (data, s) =>
              some (⟨isFinalFrame, opcode, websocketMask mask data⟩, s)
        else
          match readBytes payloadlen s with
          | none => none
          | some (data, s) => some (⟨isFinalFrame, opcode, data⟩, s)
  | _ => none

/-! ## Handshake accept value (`WebSocketProtocol13.compute_accept_value`)

The source feeds `utf8(key)` and the fixed GUID into `hashlib.sha1` and
base64-encodes the digest. SHA-1 (FIPS 180-4) and base64 (RFC 4648), which
the source takes from the standard library, are implemented here over byte
lists; 32-bit words are `Nat` values reduced `% 2^32`. -/

/-- Truncation to a 32-bit word. -/
def w32 (n : Nat) : Nat := n % 4294967296

/-- 32-bit left rotation of a word. -/
def rotl32 (b n : Nat) : Nat := w32 ((n <<< b) ||| (n >>> (32 - b)))

/-- Big-endian 32-bit byte encoding of a word. -/
def be32 (n : Nat) : List Nat :=
  [n / 256 ^ 3 % 256, n / 256 ^ 2 % 256, n / 256 % 256, n % 256]

/-- Split a byte list into 64-byte chunks (fuel-indexed so that the
recursion is structural; `chunks64` supplies enough fuel). -/
def chunks64Go : Nat → List Nat → List (List Nat)
  | 0, _ => []
  | _, [] => []
  | fuel + 1, x :: xs => ((x :: xs).take 64) :: chunks64Go fuel ((x :: xs).drop 64)

/-- Split a byte list into 64-byte chunks. -/
def chunks64 (l : List Nat) : List (List Nat) := chunks64Go l.length l

/-- SHA-1 padding: a `0x80` byte, zeros to 56 mod 64, the 64-bit bit length. -/
def sha1Pad (msg : List Nat) : List Nat :=
  msg ++ 128 :: List.replicate ((120 - (msg.length + 1) % 64) % 64) 0 ++
    be64 (8 * msg.length)

/-- Big-endian 4-byte groups to 32-bit words. -/
def bytesToWords : List Nat → List Nat
  | a :: b :: c :: d :: rest => (((a * 256 + b) * 256 + c) * 256 + d) :: bytesToWords rest
  | _ => []

/-- SHA-1 message-schedule expansion of a 16-word block to 80 words. -/
def sha1Extend (w16 : List Nat) : List Nat :=
  (List.range 64).foldl
    (fun w _ =>
      let i := w.length
      w ++ [rotl32 1 (w.getD (i - 3) 0 ^^^ w.getD (i - 8) 0 ^^^
        w.getD (i - 14) 0 ^^^ w.getD (i - 16) 0)])
    w16

/-- SHA-1 round function (bitwise complement of a word `b` is
`4294967295 - b`). -/
def sha1F (i b c d : Nat) : Nat :=
  if i < 20 then (b &&& c) ||| ((4294967295 - b) &&& d)
  else if i < 40 then b ^^^ c ^^^ d
  else if i < 60 then (b &&& c) ||| (b &&& d) ||| (c &&& d)
  else b ^^^ c ^^^ d

/-- SHA-1 round constants. -/
def sha1K (i : Nat) : Nat :=
  if i < 20 then 1518500249
  else if i < 40 then 1859775393
  else if i < 60 then 2400959708
  else 3395469782

/-- SHA-1 compression of one 64-byte chunk into the running state. -/
def sha1Compress (h : Nat × Nat × Nat × Nat × Nat) (chunk : List Nat) :
    Nat × Nat × Nat × Nat × Nat :=
  let w := sha1Extend (bytesToWords chunk)
  let r := (List.range 80).foldl
    (fun st i =>
      match st with
      | (a, b, c, d, e) =>
        (w32 (rotl32 5 a + sha1F i b c d + e + sha1K i + w.getD i 0),
         a, rotl32 30 b, c, d))
    h
  match h, r with
  | (h0, h1, h2, h3, h4), (a, b, c, d, e) =>
    (w32 (h0 + a), w32 (h1 + b), w32 (h2 + c), w32 (h3 + d), w32 (h4 + e))

/-- SHA-1 of a byte string: 20 digest bytes. -/
def sha1 (msg : List Nat) : List Nat :=
  match (chunks64 (sha1Pad msg)).foldl sha1Compress
      (1732584193, 4023233417, 2562383102, 271733878, 3285377520) with
  | (h0, h1, h2, h3, h4) => be32 h0 ++ be32 h1 ++ be32 h2 ++ be32 h3 ++ be32 h4

/-- The base64 alphabet. -/
def base64Chars : List Char :=
  "ABCDEFGHIJKLMNOPQRSTUVWXYZabcdefghijklmnopqrstuvwxyz0123456789+/".toList

/-- Base64 encoding of a byte string, with `=` padding. -/
def base64Encode : List Nat → List Char
  | [] => []
  | [a] =>
    [base64Chars.getD (a / 4) 'A', base64Chars.getD (a % 4 * 16) 'A', '=', '=']
  | [a, b] =>
    [base64Chars.getD (a / 4) 'A', base64Chars.getD (a % 4 * 16 + b / 16) 'A',
     base64Chars.getD (b % 16 * 4) 'A', '=']
  | a :: b :: c :: rest =>
    base64Chars.getD (a / 4) 'A' :: base64Chars.getD (a % 4 * 16 + b / 16) 'A' ::
    base64Chars.getD (b % 16 * 4 + c / 64) 'A' :: base64Chars.getD (c % 64) 'A' ::
    base64Encode rest

/-- `utf8` of the source applied to ASCII text: the code points as bytes. -/
def asciiBytes (s : String) : List Nat := s.toList.map Char.toNat

/-- The fixed GUID `258EAFA5-E914-47DA-95CA-C5AB0DC85B11` appended to the
key (`compute_accept_value`, "Magic value"). -/
def websocketGuid : List Nat := asciiBytes "258EAFA5-E914-47DA-95CA-C5AB0DC85B11"

/-- Model of `WebSocketProtocol13.compute_accept_value`: base64 of the SHA-1
digest of the key followed by the fixed GUID. -/
def compute_accept_value (key : List Nat) : String :=
  String.mk (base64Encode (sha1 (key ++ websocketGuid)))

/-! ## UTF-8 validity

Model of the success/failure of `data.decode("utf-8")` in `_handle_message`:
the strict RFC 3629 decoder (no overlong forms, no surrogates, no code
points above U+10FFFF), which is what CPython's strict UTF-8 codec accepts. -/

def validUtf8 : List Nat → Bool
  | [] => true
  | b :: rest =>
    if b < 128 then validUtf8 rest
    else if b < 194 then false
    else if b < 224 then
      match rest with
      | c1 :: rest2 => if 128 ≤ c1 ∧ c1 < 192 then validUtf8 rest2 else false
      | _ => false
    else if b < 240 then
      match rest with
      | c1 :: c2 :: rest2 =>
        if (if b = 224 then 160 else 128) ≤ c1 ∧
            c1 < (if b = 237 then 160 else 192) ∧
            128 ≤ c2 ∧ c2 < 192 then validUtf8 rest2
        else false
      | _ => false
    else if b < 245 then
      match rest with
      | c1 :: c2 :: c3 :: rest2 =>
        if (if b = 240 then 144 else 128) ≤ c1 ∧
            c1 < (if b = 244 then 144 else 192) ∧
            128 ≤ c2 ∧ c2 < 192 ∧ 128 ≤ c3 ∧ c3 < 192 then validUtf8 rest2
        else false
      | _ => false
    else false

/-! ## Message assembly and connection lifecycle

Frame-level model of `_receive_frame` (from the reserved-bits handling to
the fragmentation dispatch), `_handle_message`, `close` and `_abort` of
`WebSocketProtocol13`. Wire writes and delegate callbacks are recorded as a
list of events; I/O is assumed not to raise (`ConnectionResetError` paths
are modelled separately for C9). `on_message` for a TEXT frame receives the
decoded string; the event carries its UTF-8 bytes. -/

inductive Event
  /-- `_write_frame(fin, opcode, payload)` put these on the stream. -/
  | wireFrame (fin : Bool) (opcode : Nat) (payload : List Nat)
  /-- `self._writer.close()`: raw socket teardown. -/
  | socketClose
  /-- `handler.on_message(payload)`. -/
  | onMessage (payload : List Nat)
  /-- `handler.on_ping(payload)`. -/
  | onPing (payload : List Nat)
  /-- `handler.on_pong(payload)`. -/
  | onPong (payload : List Nat)
deriving Repr, DecidableEq

structure ConnState where
  clientTerminated : Bool
  serverTerminated : Bool
  /-- `self._writer.is_closing()`: set once `close()` was called on it. -/
  writerClosing : Bool
  /-- `self._fragmented_message_buffer`. -/
  fragBuffer : Option (List Nat)
  /-- `self._fragmented_message_opcode`. -/
  fragOpcode : Option Nat
  /-- `self._frame_compressed`. -/
  frameCompressed : Option Bool
  closeCode : Option Nat
  /-- `self.close_reason`, kept as UTF-8 bytes. -/
  closeReason : Option (List Nat)
  /-- `self._message_bytes_in`. -/
  messageBytesIn : Nat
  /-- `self._received_pong`. -/
  receivedPong : Bool
deriving Repr, DecidableEq

structure ConnConfig where
  /-- `self.params.max_message_size`. -/
  maxMessageSize : Nat
  /-- `self._decompressor is not None`. -/
  hasDecompressor : Bool
  /-- Abstract model of raw-deflate inflation (`zlib.decompressobj(...)
  .decompress` without its output bound): the full expansion of the input. -/
  inflate : List Nat → List Nat

/-- Model of `_PerMessageDeflateDecompressor.decompress`: append the
`00 00 FF FF` sync marker, inflate bounded by `max_message_size`; a
non-empty `unconsumed_tail` (the expansion exceeds the bound) raises
`_DecompressTooLargeError`, modelled as `Except.error`. -/
def pmdDecompress (cfg : ConnConfig) (data : List Nat) : Except Unit (List Nat) :=
  let full := cfg.inflate (data ++ [0, 0, 255, 255])
  if cfg.maxMessageSize < full.length then .error () else .ok full

/-- `self._writer.close()`: idempotent; emits the teardown event on the
first call only. -/
def writerClose (s : ConnState) : ConnState × List Event :=
  if s.writerClosing then (s, [])
  else ({ s with writerClosing := true }, [.socketClose])

/-- Model of `WebSocketProtocol13.close` (writes succeeding): send a close
frame unless the server side already terminated or the stream is closing
(code defaults to 1000 when only a reason is given), mark the server side
terminated, and tear the socket down if the client side already
terminated. -/
def closeConn (s : ConnState) (code : Option Nat) (reason : Option (List Nat)) :
    ConnState × List Event :=
  let (s1, evs1) :=
    if s.serverTerminated then (s, [])
    else if s.writerClosing then ({ s with serverTerminated := true }, [])
    else
      let code := if code = none ∧ reason ≠ none then some 1000 else code
      let closeData := (match code with | none => [] | some c => be16 c) ++
        reason.getD []
      ({ s with serverTerminated := true }, [Event.wireFrame true 8 closeData])
  if s1.clientTerminated then
    let (s2, evs2) := writerClose s1
    (s2, evs1 ++ evs2)
  else (s1, evs1)

/-- Model of `WebSocketProtocol._abort`: force both termination flags, close
the socket, then run the subclass `close()` for cleanup. -/
def abortConn (s : ConnState) : ConnState × List Event :=
  let s1 := { s with clientTerminated := true, serverTerminated := true }
  let (s2, evs1) := writerClose s1
  let (s3, evs2) := closeConn s2 none none
  (s3, evs1 ++ evs2)

/-- The opcode dispatch of `_handle_message` (after the decompression step):
TEXT must decode as UTF-8 (`_message_bytes_in` is bumped before the decode
attempt, and a `UnicodeDecodeError` aborts), BINARY is delivered, CLOSE
records code/reason, echoes a close frame and marks the client terminated,
PING is echoed as a pong then reported, PONG sets `_received_pong`, and any
other opcode aborts. -/
def handleMessageData (s : ConnState) (opcode : Nat) (data : List Nat) :
    ConnState × List Event :=
  if opcode = 1 then
    let s := { s with messageBytesIn := s.messageBytesIn + data.length }
    if validUtf8 data then (s, [.onMessage data])
    else abortConn s
  else if opcode = 2 then
    ({ s with messageBytesIn := s.messageBytesIn + data.length },
      [.onMessage data])
  else if opcode = 8 then
    let s := { s with
      clientTerminated := true,
      closeCode := if 2 ≤ data.length then some (de16 (data.take 2)) else s.closeCode,
      closeReason := if 2 < data.length then some (data.drop 2) else s.closeReason }
    let (s2, evs) := closeConn s s.closeCode none
    (s2, evs)
  else if opcode = 9 then
    (s, [.wireFrame true 10 data, .onPing data])
  else if opcode = 10 then
    ({ s with receivedPong := true }, [.onPong data])
  else abortConn s

/-- Model of `WebSocketProtocol13._handle_message`: nothing happens once the
client side has terminated; a compressed message is inflated first, and an
oversized expansion closes with 1009 and aborts. -/
def handleMessage (cfg : ConnConfig) (s : ConnState) (opcode : Nat)
    (data : List Nat) : ConnState × List Event :=
  if s.clientTerminated then (s, [])
  else if s.frameCompressed = some true then
    match pmdDecompress cfg data with
    | .error _ =>
      let (s1, evs1) := closeConn s (some 1009)
        (some (asciiBytes "message too big after decompression"))
      let (s2, evs2) := abortConn s1
      (s2, evs1 ++ evs2)
    | .ok d => handleMessageData s opcode d
  else handleMessageData s opcode data

/-- Frame-level model of `_receive_frame` from the reserved-bits handling
onward (the byte-level header and length reads are `receiveFrameBytes`):
record the compression flag and clear RSV1 when a decompressor is present
and the opcode is non-zero, abort on any remaining reserved bit, abort on a
control frame with a payload of 126 bytes or more, enforce
`max_message_size` on the prospective total (close 1009 then abort), then
run the fragmentation dispatch and hand completed messages to
`_handle_message`. -/
def receiveFrameStep (cfg : ConnConfig) (s : ConnState) (fin : Bool)
    (rsv : Nat) (opcode : Nat) (payload : List Nat) : ConnState × List Event :=
  let (s, rsv) :=
    if cfg.hasDecompressor ∧ opcode ≠ 0 then
      ({ s with frameCompressed := some (rsv &&& 64 ≠ 0) }, rsv &&& 48)
    else (s, rsv)
  if rsv ≠ 0 then abortConn s
  else if opcode &&& 8 ≠ 0 ∧ 126 ≤ payload.length then abortConn s
  else
    let newLen := payload.length + (s.fragBuffer.getD []).length
    if cfg.maxMessageSize < newLen then
      let (s1, evs1) := closeConn s (some 1009) (some (asciiBytes "message too big"))
      let (s2, evs2) := abortConn s1
      (s2, evs1 ++ evs2)
    else if opcode &&& 8 ≠ 0 then
      if fin then handleMessage cfg s opcode payload
      else abortConn s
    else if opcode = 0 then
      match s.fragBuffer with
      | none => abortConn s
      | some buf =>
        if fin then
          handleMessage cfg { s with fragBuffer := none }
            (s.fragOpcode.getD 0) (buf ++ payload)
        else ({ s with fragBuffer := some (buf ++ payload) }, [])
    else
      match s.fragBuffer with
      | some _ => abortConn s
      | none =>
        if fin then handleMessage cfg s opcode payload
        else ({ s with fragBuffer := some payload, fragOpcode := some opcode }, [])

/-- The connection state right after `WebSocketProtocol13.__init__`. -/
def initState : ConnState :=
  { clientTerminated := false, serverTerminated := false, writerClosing := false,
    fragBuffer := none, fragOpcode := none, frameCompressed := none,
    closeCode := none, closeReason := none, messageBytesIn := 0,
    receivedPong := false }

/-! ## permessage-deflate wrappers
(`_PerMessageDeflateCompressor` / `_PerMessageDeflateDecompressor`)

The zlib raw-deflate primitives are abstract here: `defl` stands for the
composite `compressor.compress(data) + compressor.flush(Z_SYNC_FLUSH)` and
`infl` for `decompressobj(-max_wbits).decompress` in the matching context
state. In the persistent (context-takeover) configuration that state is the
history of earlier messages on the stream, so the primitives are indexed by
that history where needed; the non-persistent configuration recreates fresh
objects per message, a history-independent instance of the same shape. -/

/-- Model of the window-bits validation shared by the
`_PerMessageDeflateCompressor` / `_PerMessageDeflateDecompressor`
constructors: `None` defaults to `zlib.MAX_WBITS` (15), anything outside
`[8, 15]` raises `ValueError`. -/
def pmcInit (maxWbits : Option Nat) : Except String Nat :=
  let w := maxWbits.getD 15
  if 8 ≤ w ∧ w ≤ 15 then .ok w else .error "Invalid max_wbits value"

/-- Model of `_PerMessageDeflateCompressor.compress`: run the sync-flushed
deflate and strip the trailing 4-byte `00 00 FF FF` marker (`data[:-4]`). -/
def pmcCompress (defl : List Nat → List Nat) (data : List Nat) : List Nat :=
  (defl data).take ((defl data).length - 4)

/-! ## Keepalive (`periodic_ping` / `ping_sleep_time`)

Times are rationals; sleeps, pings and the closing call are recorded as a
trace. The environment supplies whether a pong was observed during each
iteration's timeout window (`pong n` is `self._received_pong` at the check
of iteration `n`) and the wall-clock values (`pingClock n` is `time.time()`
at iteration `n`'s ping, `nowClock n` at its final sleep). -/

inductive PingEvent
  | sleep (t : ℚ)
  | pingSent
  | closed (reason : String)
deriving Repr, DecidableEq

/-- Model of the static `ping_sleep_time`. -/
def pingSleepTime (lastPingTime interval now : ℚ) : ℚ :=
  max 0 (lastPingTime + interval - now)

/-- The `while True` body of `periodic_ping`, fuel-bounded: send a ping,
sleep the timeout, close with "ping timed out" if no pong was observed and
the timeout is positive, otherwise sleep until the next scheduled ping and
repeat. -/
def periodicPingLoop (interval timeout : ℚ) (pong : Nat → Bool)
    (pingClock nowClock : Nat → ℚ) : Nat → Nat → List PingEvent
  | 0, _ => []
  | fuel + 1, n =>
    PingEvent.pingSent :: PingEvent.sleep timeout ::
      (if 0 < timeout ∧ pong n = false then [PingEvent.closed "ping timed out"]
       else PingEvent.sleep (pingSleepTime (pingClock n) interval (nowClock n)) ::
         periodicPingLoop interval timeout pong pingClock nowClock fuel (n + 1))

/-- Model of `periodic_ping`: an initial sleep of one interval, then the
loop. -/
def periodicPing (interval timeout : ℚ) (pong : Nat → Bool)
    (pingClock nowClock : Nat → ℚ) (fuel : Nat) : List PingEvent :=
  PingEvent.sleep interval ::
    periodicPingLoop interval timeout pong pingClock nowClock fuel 0

/-- Number of pings sent in a keepalive trace. -/
def countPings (trace : List PingEvent) : Nat :=
  (trace.filter fun e => e = PingEvent.pingSent).length

/-! ## Surfacing of `ConnectionResetError` during writes

Each writer wraps `self._write_frame(...)` differently; the boolean input
states whether the underlying write raises `ConnectionResetError`. -/

inductive WriteOutcome
  /-- the write completed -/
  | ok
  /-- `WebSocketClosedError` is raised to the caller -/
  | wsClosedError
  /-- the raw `ConnectionResetError` propagates to the caller -/
  | connResetError
  /-- the exception is swallowed and the connection aborted (`_abort`) -/
  | connAborted
deriving Repr, DecidableEq

/-- `write_message`: `except ConnectionResetError: raise
WebSocketClosedError()`. -/
def writeMessageOutcome (reset : Bool) : WriteOutcome :=
  if reset then .wsClosedError else .ok

/-- `write_ping`: the bare `await self._write_frame(True, 0x9, data)`, no
exception handling. -/
def writePingOutcome (reset : Bool) : WriteOutcome :=
  if reset then .connResetError else .ok

/-- The pong echo in `_handle_message` (opcode 0x9):
`except ConnectionResetError: await self._abort()`. -/
def pongEchoOutcome (reset : Bool) : WriteOutcome :=
  if reset then .connAborted else .ok

/-- The close-frame write in `close`:
`except ConnectionResetError: await self._abort()`. -/
def closeFrameOutcome (reset : Bool) : WriteOutcome :=
  if reset then .connAborted else .ok

/-! ## Origin check (`WebSocketHandler.get` / `check_origin`)

Headers are a partial map from names to values. `urlparseNetloc` models
`urllib.parse.urlparse(origin).netloc`: strip a leading `scheme:` when the
prefix before the first colon is a well-formed scheme, then take the text
between `//` and the next `/`, `?` or `#` (empty when the remainder does
not start with `//`). -/

/-- Model of `str.lower` for the ASCII header values compared here:
map `A`-`Z` to `a`-`z`. -/
def lowerAscii (s : String) : String :=
  String.mk (s.toList.map fun c =>
    if 65 ≤ c.toNat ∧ c.toNat ≤ 90 then Char.ofNat (c.toNat + 32) else c)

def isSchemeChar (c : Char) : Bool :=
  c.isAlphanum || c = '+' || c = '-' || c = '.'

/-- Split at the first colon: the text before it and after it. -/
def findColon : List Char → Option (List Char × List Char)
  | [] => none
  | c :: rest =>
    if c = ':' then some ([], rest)
    else
      match findColon rest with
      | some (pre, post) => some (c :: pre, post)
      | none => none

/-- Model of `urllib.parse.urlparse(url).netloc`. -/
def urlparseNetloc (url : String) : String :=
  let cs := url.toList
  let rest :=
    match findColon cs with
    | some (pre, post) =>
      if pre ≠ [] ∧ (pre.headD 'a').isAlpha ∧ pre.all isSchemeChar then post
      else cs
    | none => cs
  match rest with
  | '/' :: '/' :: r =>
    String.mk (r.takeWhile fun c => ¬(c = '/' ∨ c = '?' ∨ c = '#'))
  | _ => ""

/-- Model of `WebSocketHandler.check_origin`: the origin's netloc,
lowercased, compared to the `Host` header (`origin == host`; comparison
with an absent header is `False`). -/
def check_origin (hostHeader : Option String) (origin : String) : Bool :=
  match hostHeader with
  | none => false
  | some host => lowerAscii (urlparseNetloc origin) == host

/-- The origin-selection of `WebSocketHandler.get`: the `Origin` header,
else the version-8 `Sec-Websocket-Origin` header. -/
def effectiveOrigin (headers : String → Option String) : Option String :=
  match headers "Origin" with
  | some o => some o
  | none => headers "Sec-Websocket-Origin"

/-- `WebSocketHandler.get`: the request passes the origin gate iff no origin
header is present or `check_origin` accepts it. -/
def originAllowed (headers : String → Option String) : Bool :=
  match effectiveOrigin headers with
  | none => true
  | some o => check_origin (headers "Host") o

/-- The origin rule as the spec states it (for comparison with
`originAllowed`): with an `Origin` header present, accept exactly when
origin and host match after stripping the scheme, case-insensitively on
both sides; with no `Origin` header, always accept. -/
def claimOriginAccepts (headers : String → Option String) : Bool :=
  match headers "Origin" with
  | none => true
  | some o =>
    match headers "Host" with
    | none => false
    | some host => lowerAscii (urlparseNetloc o) == lowerAscii host

/-- The header map of the C2 counterexample: `Host: Example.com`,
`Origin: http://Example.com`. -/
def cexHeaders : String → Option String := fun k =>
  if k = "Host" then some "Example.com"
  else if k = "Origin" then some "http://Example.com"
  else none

lemma take_append_sub4 (c m : List Nat) (hm : m.length = 4) :
    (c ++ m).take ((c ++ m).length - 4) = c := by
  have h1 : (c ++ m).length - 4 = c.length := by simp [hm]
  rw [h1, List.take_left]

lemma abortConn_spec (s : ConnState) (hwc : s.writerClosing = false) :
    abortConn s =
      ({ s with
          clientTerminated := true, serverTerminated := true,
          writerClosing := true }, [Event.socketClose]) := by
  simp [abortConn, writerClose, closeConn, hwc]

/-! ### Codec lemmas -/

lemma headerByte_bits (fin : Bool) (op : Nat) (hop : op < 16) :
    ((if fin then 128 else 0) ||| op) &&& 15 = op ∧
    ((if fin then 128 else 0) ||| op) &&& 128 = (if fin then 128 else 0) ∧
    ((if fin then 128 else 0) ||| op) &&& 112 = 0 := by
  cases fin <;> interval_cases op <;> decide

lemma byte_and127 (x : Nat) (h : x < 128) : x &&& 127 = x := by
  have h1 : x &&& (2 ^ 7 - 1) = x % 2 ^ 7 := Nat.and_pow_two_sub_one_eq_mod x 7
  simpa [Nat.mod_eq_of_lt h] using h1

lemma byte_and128 (x : Nat) (h : x < 128) : x &&& 128 = 0 := by
  have h1 : x &&& 2 ^ 7 = (x.testBit 7).toNat * 2 ^ 7 := Nat.and_two_pow x 7
  have h2 : x.testBit 7 = false := Nat.testBit_lt_two_pow h
  simpa [h2] using h1

lemma de16_be16 (n : Nat) (h : n ≤ 65535) : de16 (be16 n) = n := by
  simp only [be16, de16, List.getD_cons_zero, List.getD_cons_succ]
  omega

lemma de64_be64 (n : Nat) (h : n < 2 ^ 64) : de64 (be64 n) = n := by
  simp only [be64, de64, List.getD_cons_zero, List.getD_cons_succ]
  norm_num
  omega

lemma readBytes_exact (l s : List Nat) :
    readBytes l.length (l ++ s) = some (l, s) := by
  simp [readBytes, List.take_left, List.drop_left]

lemma writeFrame_ok_shape (fin : Bool) (opcode : Nat) (data : List Nat)
    (flags : Nat) (f : List Nat) (h : writeFrame fin opcode data flags = .ok f) :
    f = ((if fin then 128 else 0) ||| opcode ||| flags) ::
        lenFieldBytes data.length ++ data ∧
    ¬(opcode &&& 8 ≠ 0 ∧ data.length > 125) := by
  unfold writeFrame at h
  by_cases h1 : opcode &&& 8 ≠ 0 ∧ fin = false
  · simp [h1] at h
  · by_cases h2 : opcode &&& 8 ≠ 0 ∧ data.length > 125
    · have hfin : fin = true := by
        rcases h2 with ⟨hc8, -⟩
        cases fin
        · exact absurd ⟨hc8, rfl⟩ h1
        · rfl
      rw [hfin] at h
      simp [h2] at h
    · simp [h1, h2] at h
      exact ⟨h.symm, h2⟩

lemma writeFrame_noncontrol (fin : Bool) (opcode : Nat) (hc : opcode &&& 8 = 0)
    (data : List Nat) (flags : Nat) :
    writeFrame fin opcode data flags =
      .ok (((if fin then 128 else 0) ||| opcode ||| flags) ::
        lenFieldBytes data.length ++ data) := by
  unfold writeFrame
  simp [hc]

/-- Decoding inverts encoding: a frame produced by `_write_frame` (flags 0,
server side) followed by more stream bytes is decoded back to the same
fin bit, opcode and payload, leaving the extra bytes unread. -/
lemma receiveFrame_writeFrame (fin : Bool) (opcode : Nat) (data rest f : List Nat)
    (hop : opcode < 16) (hlen : data.length < 2 ^ 64)
    (h : writeFrame fin opcode data 0 = .ok f) :
    receiveFrameBytes (f ++ rest) = some (⟨fin, opcode, data⟩, rest) := by
  obtain ⟨hf, hctl⟩ := writeFrame_ok_shape fin opcode data 0 f h
  obtain ⟨h15, h128, h112⟩ := headerByte_bits fin opcode hop
  have hfin : (((if fin then (128 : Nat) else 0) ||| opcode) &&& 128 != 0) = fin := by
    rw [h128]; cases fin <;> rfl
  subst hf
  rw [Nat.or_zero]
  by_cases hdl : data.length < 126
  · have hl : lenFieldBytes data.length = [data.length] := by
      simp [lenFieldBytes, hdl]
    rw [hl]
    have h127 : data.length &&& 127 = data.length :=
      byte_and127 _ (by omega)
    have h128' : data.length &&& 128 = 0 := byte_and128 _ (by omega)
    simp only [List.cons_append, List.singleton_append, receiveFrameBytes,
      h112, h15, hfin, h127, h128']
    have hnoctl : ¬(opcode &&& 8 ≠ 0 ∧ data.length ≥ 126) := by omega
    simp only [ne_eq, not_true_eq_false, not_false_eq_true, if_false, if_true,
      reduceIte, hnoctl]
    rw [readExtendedLen, if_pos hdl]
    simp only [List.nil_append, readBytes_exact]
  · have hc : opcode &&& 8 = 0 := by
      by_contra hc
      exact hctl ⟨hc, by omega⟩
    by_cases hdl2 : data.length ≤ 65535
    · have hl : lenFieldBytes data.length = 126 :: be16 data.length := by
        simp [lenFieldBytes, hdl, hdl2]
      rw [hl]
      simp only [List.cons_append, List.append_assoc, receiveFrameBytes,
        h112, h15, hfin]
      norm_num [hc]
      rw [readExtendedLen]
      have : readBytes 2 (be16 data.length ++ (data ++ rest)) =
          some (be16 data.length, data ++ rest) := by
        have hblen : (be16 data.length).length = 2 := rfl
        simpa [hblen] using readBytes_exact (be16 data.length) (data ++ rest)
      rw [this]
      have e1 : (126 &&& 127 : Nat) = 126 := rfl
      have e2 : (126 &&& 128 : Nat) = 0 := rfl
      simp [e1, e2, de16_be16 data.length hdl2, readBytes_exact]
    · have hl : lenFieldBytes data.length = 127 :: be64 data.length := by
        simp [lenFieldBytes, hdl, hdl2]
      rw [hl]
      simp only [List.cons_append, List.append_assoc, receiveFrameBytes,
        h112, h15, hfin]
      norm_num [hc]
      rw [readExtendedLen]
      norm_num
      have : readBytes 8 (be64 data.length ++ (data ++ rest)) =
          some (be64 data.length, data ++ rest) := by
        have hblen : (be64 data.length).length = 8 := rfl
        simpa [hblen] using readBytes_exact (be64 data.length) (data ++ rest)
      rw [this]
      have e1 : (127 &&& 128 : Nat) = 0 := rfl
      simp [e1, de64_be64 data.length hlen, readBytes_exact]

end Kate

/-- C5: for every 4-byte key `k` and every byte sequence `d`, applying the
masking function twice with the same key yields `d` back:
`mask(k, mask(k, d)) = d`, where `mask` XORs `d[i]` with `k[i % 4]`. -/
theorem C5_mask_roundtrip (k d : List Nat) (hk : k.length = 4) :
    Kate.websocketMask k (Kate.websocketMask k d) = d :=
  Kate.websocketMask_involutive k d

/-- Witness for C5 at the concrete key `[1,2,3,4]` and data `[5,6,7]`. -/
theorem C5_mask_roundtrip_witness :
    Kate.websocketMask [1, 2, 3, 4] (Kate.websocketMask [1, 2, 3, 4] [5, 6, 7]) =
      [5, 6, 7] :=
  C5_mask_roundtrip [1, 2, 3, 4] [5, 6, 7] (by decide)

/-- C3: frame encoding selects the length-field width by payload length —
0–125 literal in the 7-bit field, 126–65535 via marker 126 with a 16-bit
big-endian extension, larger via marker 127 with a 64-bit big-endian
extension — decoding an encoded frame recovers the original payload (hence
its length), and the boundary lengths 0, 125, 126, 65535 and 65536 each
select the correct width and round-trip. -/
theorem C3_length_encoding_roundtrip :
    (∀ (fin : Bool) (opcode : Nat) (data rest f : List Nat),
        opcode < 16 → data.length < 2 ^ 64 →
        Kate.writeFrame fin opcode data 0 = .ok f →
        Kate.receiveFrameBytes (f ++ rest) = some (⟨fin, opcode, data⟩, rest)) ∧
    (∀ n : Nat, n ≤ 125 → Kate.lenFieldBytes n = [n]) ∧
    (∀ n : Nat, 126 ≤ n → n ≤ 65535 → Kate.lenFieldBytes n = 126 :: Kate.be16 n) ∧
    (∀ n : Nat, 65535 < n → Kate.lenFieldBytes n = 127 :: Kate.be64 n) ∧
    (∀ L ∈ ([0, 125, 126, 65535, 65536] : List Nat),
        ∃ f, Kate.writeFrame true 2 (List.replicate L 0) 0 = .ok f ∧
          Kate.receiveFrameBytes f = some (⟨true, 2, List.replicate L 0⟩, [])) := by
  refine ⟨fun fin opcode data rest f hop hlen h =>
      Kate.receiveFrame_writeFrame fin opcode data rest f hop hlen h,
    fun n hn => by simp [Kate.lenFieldBytes]; omega,
    fun n h1 h2 => by rw [Kate.lenFieldBytes, if_neg (by omega), if_pos h2],
    fun n h1 => by rw [Kate.lenFieldBytes, if_neg (by omega), if_neg (by omega)], ?_⟩
  intro L hL
  refine ⟨(128 ||| 2 ||| 0) :: Kate.lenFieldBytes (List.replicate L 0).length ++
      List.replicate L 0, Kate.writeFrame_noncontrol true 2 (by decide) _ 0, ?_⟩
  have h := Kate.receiveFrame_writeFrame true 2 (List.replicate L 0) []
    ((128 ||| 2 ||| 0) :: Kate.lenFieldBytes (List.replicate L 0).length ++
      List.replicate L 0) (by decide)
    (by
      simp only [List.length_replicate]
      fin_cases hL <;> norm_num)
    (Kate.writeFrame_noncontrol true 2 (by decide) _ 0)
  simpa using h

/-- Witness for C3: the general round-trip conjunct applied to the concrete
frame `fin = true`, opcode 2, payload `[7, 8, 9]`. -/
theorem C3_length_encoding_roundtrip_witness :
    Kate.receiveFrameBytes ([130, 3, 7, 8, 9] ++ []) =
      some (⟨true, 2, [7, 8, 9]⟩, []) :=
  C3_length_encoding_roundtrip.1 true 2 [7, 8, 9] [] [130, 3, 7, 8, 9]
    (by decide) (by decide) rfl

/-- C6: the computed accept value is base64 of the SHA-1 digest of the key
concatenated with the fixed GUID `258EAFA5-E914-47DA-95CA-C5AB0DC85B11`;
for the key `"dGhlIHNhbXBsZSBub25jZQ=="` it equals the RFC 6455 example
value `"s3pPLMBiTxaQ9kYGzzhZRbK+xOo="`. -/
theorem C6_accept_value :
    (∀ key : List Nat, Kate.compute_accept_value key =
      String.mk (Kate.base64Encode (Kate.sha1 (key ++ Kate.websocketGuid)))) ∧
    Kate.compute_accept_value (Kate.asciiBytes "dGhlIHNhbXBsZSBub25jZQ==") =
      "s3pPLMBiTxaQ9kYGzzhZRbK+xOo=" :=
  ⟨fun _ => rfl, by set_option maxRecDepth 20000 in decide⟩

/-- C1: for every data or continuation frame whose payload would push the
prospective message size (buffered fragment bytes plus the new payload) past
`max_message_size`, a close frame with code 1009 and reason
"message too big" goes out, the connection is aborted, and `on_message` is
never invoked; and a compressed payload that fits the limit but inflates
past it is rejected the same way with code 1009 (reason
"message too big after decompression") instead of being delivered. -/
theorem C1_size_limit_enforced :
    (∀ (cfg : Kate.ConnConfig) (s : Kate.ConnState) (fin : Bool)
        (opcode : Nat) (payload : List Nat),
      (opcode = 0 ∨ opcode = 1 ∨ opcode = 2) →
      s.clientTerminated = false → s.serverTerminated = false →
      s.writerClosing = false →
      cfg.maxMessageSize < payload.length + (s.fragBuffer.getD []).length →
      (Kate.receiveFrameStep cfg s fin 0 opcode payload).2 =
        [Kate.Event.wireFrame true 8
          (Kate.be16 1009 ++ Kate.asciiBytes "message too big"),
         Kate.Event.socketClose] ∧
      (Kate.receiveFrameStep cfg s fin 0 opcode payload).1.clientTerminated = true ∧
      (Kate.receiveFrameStep cfg s fin 0 opcode payload).1.serverTerminated = true ∧
      ∀ d, Kate.Event.onMessage d ∉ (Kate.receiveFrameStep cfg s fin 0 opcode payload).2) ∧
    (∀ (cfg : Kate.ConnConfig) (s : Kate.ConnState) (opcode : Nat)
        (payload : List Nat),
      (opcode = 1 ∨ opcode = 2) →
      cfg.hasDecompressor = true →
      s.clientTerminated = false → s.serverTerminated = false →
      s.writerClosing = false → s.fragBuffer = none →
      payload.length ≤ cfg.maxMessageSize →
      cfg.maxMessageSize < (cfg.inflate (payload ++ [0, 0, 255, 255])).length →
      (Kate.receiveFrameStep cfg s true 64 opcode payload).2 =
        [Kate.Event.wireFrame true 8
          (Kate.be16 1009 ++ Kate.asciiBytes "message too big after decompression"),
         Kate.Event.socketClose] ∧
      (Kate.receiveFrameStep cfg s true 64 opcode payload).1.clientTerminated = true ∧
      (Kate.receiveFrameStep cfg s true 64 opcode payload).1.serverTerminated = true ∧
      ∀ d, Kate.Event.onMessage d ∉ (Kate.receiveFrameStep cfg s true 64 opcode payload).2) := by
  constructor
  · intro cfg s fin opcode payload hop hct hst hwc hsize
    have e08 : (0 &&& 8 : Nat) = 0 := rfl
    have e18 : (1 &&& 8 : Nat) = 0 := rfl
    have e28 : (2 &&& 8 : Nat) = 0 := rfl
    rcases hop with rfl | rfl | rfl <;> by_cases hdc : cfg.hasDecompressor <;>
      simp [Kate.receiveFrameStep, Kate.closeConn, Kate.abortConn,
        Kate.writerClose, hct, hst, hwc, hsize, hdc, e08, e18, e28]
  · intro cfg s opcode payload hop hdc hct hst hwc hfb hfit hbig
    have hnotlt : ¬cfg.maxMessageSize < payload.length := not_lt.mpr hfit
    have e18 : (1 &&& 8 : Nat) = 0 := rfl
    have e28 : (2 &&& 8 : Nat) = 0 := rfl
    have e6448 : (64 &&& 48 : Nat) = 0 := rfl
    rcases hop with rfl | rfl <;>
      simp [Kate.receiveFrameStep, Kate.handleMessage, Kate.pmdDecompress,
        Kate.closeConn, Kate.abortConn, Kate.writerClose, hct, hst, hwc,
        hfb, hdc, hnotlt, hbig, e18, e28, e6448]

/-- Witness for C1: `max_message_size = 4` with a 5-byte TEXT frame (the
spec's oversize example), and a 1-byte compressed frame inflating to 10
bytes. -/
theorem C1_size_limit_enforced_witness :
    (Kate.receiveFrameStep ⟨4, false, id⟩ Kate.initState true 0 1
        [0, 0, 0, 0, 0]).2 =
      [Kate.Event.wireFrame true 8
        (Kate.be16 1009 ++ Kate.asciiBytes "message too big"),
       Kate.Event.socketClose] ∧
    (Kate.receiveFrameStep ⟨4, true, fun _ => List.replicate 10 0⟩
        Kate.initState true 64 1 [1]).2 =
      [Kate.Event.wireFrame true 8
        (Kate.be16 1009 ++ Kate.asciiBytes "message too big after decompression"),
       Kate.Event.socketClose] :=
  ⟨(C1_size_limit_enforced.1 ⟨4, false, id⟩ Kate.initState true 1 [0, 0, 0, 0, 0]
      (by decide) rfl rfl rfl (by decide)).1,
   (C1_size_limit_enforced.2 ⟨4, true, fun _ => List.replicate 10 0⟩
      Kate.initState 1 [1] (by decide) rfl rfl rfl rfl rfl (by decide)
      (by decide)).1⟩

/-- C7: a completed TEXT message whose payload is not valid UTF-8 aborts the
connection — both termination flags set and the raw socket torn down —
without sending any close frame, and without invoking `on_message`. -/
theorem C7_invalid_utf8_aborts (cfg : Kate.ConnConfig) (s : Kate.ConnState)
    (payload : List Nat) (hct : s.clientTerminated = false)
    (hfc : s.frameCompressed ≠ some true) (hwc : s.writerClosing = false)
    (hbad : Kate.validUtf8 payload = false) :
    Kate.handleMessage cfg s 1 payload =
      ({ s with
          clientTerminated := true, serverTerminated := true,
          writerClosing := true,
          messageBytesIn := s.messageBytesIn + payload.length },
       [Kate.Event.socketClose]) := by
  simp [Kate.handleMessage, Kate.handleMessageData, Kate.abortConn,
    Kate.writerClose, Kate.closeConn, hct, hfc, hwc, hbad]

/-- Witness for C7: the single byte `0xFF` is not valid UTF-8. -/
theorem C7_invalid_utf8_aborts_witness :
    Kate.handleMessage ⟨100, false, id⟩ Kate.initState 1 [255] =
      ({ Kate.initState with
          clientTerminated := true, serverTerminated := true,
          writerClosing := true, messageBytesIn := 1 },
       [Kate.Event.socketClose]) :=
  C7_invalid_utf8_aborts ⟨100, false, id⟩ Kate.initState [255] rfl
    (by decide) rfl (by decide)

/-- C10: once the client side has terminated, `_handle_message` returns
immediately — the state is unchanged and no delegate callback
(`on_message`, `on_ping`, `on_pong`) is invoked. -/
theorem C10_no_callbacks_after_client_terminated (cfg : Kate.ConnConfig)
    (s : Kate.ConnState) (opcode : Nat) (data : List Nat)
    (h : s.clientTerminated = true) :
    Kate.handleMessage cfg s opcode data = (s, []) := by
  simp [Kate.handleMessage, h]

/-- Witness for C10: a PING frame handled after the client terminated. -/
theorem C10_no_callbacks_after_client_terminated_witness :
    Kate.handleMessage ⟨100, false, id⟩
        { Kate.initState with clientTerminated := true } 9 [1] =
      ({ Kate.initState with clientTerminated := true }, []) :=
  C10_no_callbacks_after_client_terminated ⟨100, false, id⟩
    { Kate.initState with clientTerminated := true } 9 [1] rfl

/-- C4: for every payload `p` and valid window-bits `w ∈ [8, 15]`,
compressing (which strips the trailing `00 00 FF FF` sync marker) and then
decompressing (which re-appends it before inflating) restores `p`, in both
the persistent and non-persistent configurations; the zlib sync-flush
primitives enter through their contract (inflate undoes a sync-flushed
deflate in the matching context state, whose output ends with the marker),
indexed by the message history so that context takeover and per-message
fresh state are both instances. -/
theorem C4_compression_roundtrip :
    (∀ w : Nat, 8 ≤ w → w ≤ 15 → Kate.pmcInit (some w) = .ok w) ∧
    (∀ w : Nat, ¬(8 ≤ w ∧ w ≤ 15) →
      Kate.pmcInit (some w) = .error "Invalid max_wbits value") ∧
    (∀ (maxMessageSize : Nat) (defl infl : List (List Nat) → List Nat → List Nat),
      (∀ h p, infl h (defl h p) = p) →
      (∀ h p, ∃ c, defl h p = c ++ [0, 0, 255, 255]) →
      ∀ (h : List (List Nat)) (p : List Nat), p.length ≤ maxMessageSize →
        Kate.pmdDecompress ⟨maxMessageSize, true, infl h⟩
          (Kate.pmcCompress (defl h) p) = .ok p) := by
  refine ⟨fun w h1 h2 => by simp [Kate.pmcInit, h1, h2],
    fun w hw => by simp [Kate.pmcInit, hw], ?_⟩
  intro maxMessageSize defl infl hrt hmark h p hle
  obtain ⟨c, hc⟩ := hmark h p
  have hstrip : Kate.pmcCompress (defl h) p = c := by
    rw [Kate.pmcCompress, hc, Kate.take_append_sub4 c [0, 0, 255, 255] rfl]
  have hfull : infl h (Kate.pmcCompress (defl h) p ++ [0, 0, 255, 255]) = p := by
    rw [hstrip, ← hc, hrt]
  simp [Kate.pmdDecompress, hfull, Nat.not_lt.mpr hle]

/-- Witness for C4: window bits 12, payload `[1, 2, 3]`, and the trivial
sync-flushed pair `defl p = p ++ marker`, `infl c = c` minus its last four
bytes. -/
theorem C4_compression_roundtrip_witness :
    Kate.pmcInit (some 12) = .ok 12 ∧
    Kate.pmdDecompress ⟨10, true, (fun _ c => c.take (c.length - 4))
        ([] : List (List Nat))⟩
      (Kate.pmcCompress ((fun _ p => p ++ [0, 0, 255, 255])
        ([] : List (List Nat))) [1, 2, 3]) = .ok [1, 2, 3] :=
  ⟨C4_compression_roundtrip.1 12 (by decide) (by decide),
   C4_compression_roundtrip.2.2 10 (fun _ p => p ++ [0, 0, 255, 255])
     (fun _ c => c.take (c.length - 4))
     (fun _ p => Kate.take_append_sub4 p [0, 0, 255, 255] rfl)
     (fun _ p => ⟨p, rfl⟩) [] [1, 2, 3] (by decide)⟩

/-- C8: with a positive interval and timeout and no pong ever observed, the
keepalive loop sleeps one interval, sends exactly one ping, sleeps the
timeout, and closes with reason "ping timed out"; and the sleep until the
next scheduled ping is `max(0, last_ping_time + interval - now)`. -/
theorem C8_ping_timeout :
    (∀ (interval timeout : ℚ) (pong : Nat → Bool)
        (pingClock nowClock : Nat → ℚ) (fuel : Nat),
      0 < interval → 0 < timeout → (∀ n, pong n = false) →
      Kate.periodicPing interval timeout pong pingClock nowClock (fuel + 1) =
        [Kate.PingEvent.sleep interval, Kate.PingEvent.pingSent,
         Kate.PingEvent.sleep timeout,
         Kate.PingEvent.closed "ping timed out"] ∧
      Kate.countPings
        (Kate.periodicPing interval timeout pong pingClock nowClock (fuel + 1)) = 1) ∧
    (∀ lastPingTime interval now : ℚ,
      Kate.pingSleepTime lastPingTime interval now =
        max 0 (lastPingTime + interval - now)) := by
  refine ⟨?_, fun _ _ _ => rfl⟩
  intro interval timeout pong pingClock nowClock fuel _hi ht hp
  have htrace :
      Kate.periodicPing interval timeout pong pingClock nowClock (fuel + 1) =
        [Kate.PingEvent.sleep interval, Kate.PingEvent.pingSent,
         Kate.PingEvent.sleep timeout,
         Kate.PingEvent.closed "ping timed out"] := by
    simp [Kate.periodicPing, Kate.periodicPingLoop, ht, hp 0]
  refine ⟨htrace, ?_⟩
  rw [htrace]
  simp [Kate.countPings]

/-- Witness for C8 at `interval = timeout = 1` with no pongs. -/
theorem C8_ping_timeout_witness :
    Kate.periodicPing 1 1 (fun _ => false) (fun _ => 0) (fun _ => 0) 1 =
      [Kate.PingEvent.sleep 1, Kate.PingEvent.pingSent, Kate.PingEvent.sleep 1,
       Kate.PingEvent.closed "ping timed out"] ∧
    Kate.countPings
      (Kate.periodicPing 1 1 (fun _ => false) (fun _ => 0) (fun _ => 0) 1) = 1 :=
  C8_ping_timeout.1 1 1 (fun _ => false) (fun _ => 0) (fun _ => 0) 0
    (by norm_num) (by norm_num) (fun _ => rfl)

/-- C9 counterexample: the claim says a connection reset during *every*
write operation is surfaced as `WebSocketClosedError`, but a reset during
`write_ping` propagates as the raw `ConnectionResetError`. -/
theorem C9_counterexample :
    Kate.writePingOutcome true = Kate.WriteOutcome.connResetError ∧
    Kate.writePingOutcome true ≠ Kate.WriteOutcome.wsClosedError := by decide

/-- C9 (amended): a reset during `write_message` is surfaced as
`WebSocketClosedError` and never as the raw error; a reset during
`write_ping` propagates raw; resets while echoing a pong or writing a close
frame are swallowed by aborting the connection. -/
theorem C9_write_reset_surfacing :
    Kate.writeMessageOutcome true = Kate.WriteOutcome.wsClosedError ∧
    (∀ r, Kate.writeMessageOutcome r ≠ Kate.WriteOutcome.connResetError) ∧
    Kate.writePingOutcome true = Kate.WriteOutcome.connResetError ∧
    Kate.pongEchoOutcome true = Kate.WriteOutcome.connAborted ∧
    Kate.closeFrameOutcome true = Kate.WriteOutcome.connAborted := by
  refine ⟨rfl, fun r => ?_, rfl, rfl, rfl⟩
  cases r <;> decide

/-- C2 counterexample: with `Host: Example.com` and
`Origin: http://Example.com`, a case-insensitive host comparison (the claim)
accepts, but the code lowercases only the origin's netloc and compares it to
the Host header verbatim, so the request is rejected. -/
theorem C2_counterexample :
    Kate.claimOriginAccepts Kate.cexHeaders = true ∧
    Kate.originAllowed Kate.cexHeaders = false := by decide

/-- C2 (amended): a request whose effective origin header (Origin, or the
version-8 Sec-Websocket-Origin) is absent is always accepted; when present,
it is accepted exactly when the origin's netloc, lowercased, equals the Host
header verbatim (the Host side is not lowercased). -/
theorem C2_origin_check_amended :
    (∀ headers : String → Option String,
      Kate.effectiveOrigin headers = none → Kate.originAllowed headers = true) ∧
    (∀ (headers : String → Option String) (o : String),
      Kate.effectiveOrigin headers = some o →
      (Kate.originAllowed headers = true ↔
        headers "Host" = some (Kate.lowerAscii (Kate.urlparseNetloc o)))) := by
  constructor
  · intro headers h
    simp [Kate.originAllowed, h]
  · intro headers o h
    simp only [Kate.originAllowed, h]
    cases hh : headers "Host" with
    | none => simp [Kate.check_origin, hh]
    | some host =>
      simp only [Kate.check_origin, beq_iff_eq, Option.some.injEq]
      exact eq_comm

/-- Witness for C2 (amended): a request with no origin headers, and the
counterexample's header map on the present-origin side. -/
theorem C2_origin_check_amended_witness :
    Kate.originAllowed (fun _ => none) = true ∧
    (Kate.originAllowed Kate.cexHeaders = true ↔
      Kate.cexHeaders "Host" =
        some (Kate.lowerAscii (Kate.urlparseNetloc "http://Example.com"))) :=
  ⟨C2_origin_check_amended.1 (fun _ => none) rfl,
   C2_origin_check_amended.2 Kate.cexHeaders "http://Example.com" (by decide)⟩
